import Mathlib

/-!
Shallow embedding of the cc430-modem firmware (src/cc430-modem.c).

The firmware bridges a serial line and a packet radio.  We model the
global byte buffers as total functions `Nat → Nat` (a C array store;
an index is a byte address relative to the array base, so out-of-bounds
stores are representable), 8-bit variables as `Nat` with explicit
`% 256` where the C code can wrap, and the `char`/`signed char`
conversions with an explicit wrap function.  Hardware registers that the
code only reads (UCA0RXBUF, RXBYTES, the RX FIFO, the radio status) are
inputs of the corresponding handler.

Constants from the source:
  PAYLOAD_LEN = 32, PACKET_LEN = 35, UART_BUF_LEN = 96, CRC_OK = 0x80.
-/

/-- Pointwise update of a byte store, modelling a C array store `f[i] = v`. -/
def upd (f : Nat → Nat) (i v : Nat) : Nat → Nat := fun k => if k = i then v else f k

/-- Conversion on assignment to an `unsigned char` lvalue. -/
def uc8 (n : Int) : Nat := (n % 256).toNat

/-- Conversion on assignment to a `char` / `signed char` lvalue. -/
def sc8 (n : Int) : Int := (n + 128) % 256 - 128

/-- The global mutable state of cc430-modem.c that the claims are about.
Field names follow the C globals.  `timerArmed` models whether TIMER1_A0
is running (set by `timer_set`, stopped by `timer_clear`), and
`sentFrames` is a ghost trace of the byte strings handed to
`RfTransmit` (first `RfTxBuffer[0] + 1` bytes of `RfTxBuffer`). -/
structure Modem where
  uartRxBuffer : Nat → Nat
  uartRxBuffer_i : Nat
  uartTxBuffer : Nat → Nat
  uartTxBufferLength : Nat
  uart_rx_timeout : Bool
  timerArmed : Bool
  data_to_send : Nat
  rfRxBufferLength : Nat
  rf_error : Bool
  rf_transmitting : Bool
  rf_receiving : Bool
  sentFrames : List (List Nat)

/-- Initial state: all C globals start zeroed (BSS). -/
def initState : Modem where
  uartRxBuffer := fun _ => 0
  uartRxBuffer_i := 0
  uartTxBuffer := fun _ => 0
  uartTxBufferLength := 0
  uart_rx_timeout := false
  timerArmed := false
  data_to_send := 0
  rfRxBufferLength := 0
  rf_error := false
  rf_transmitting := false
  rf_receiving := false
  sentFrames := []

/-- Models `handle_uart_rx_byte` (src lines 466-496): `timer_clear()` first
(stops the timer and zeroes `uart_rx_timeout`), then the byte is discarded
if `UartRxBuffer_i == UART_BUF_LEN`; otherwise it is stored and the index
incremented; a newline sets `data_to_send` to the new index and returns 1,
any other byte calls `timer_set` and returns 0.  The returned `Bool` is
the C return value (1 = wake the main loop). -/
def handle_uart_rx_byte (s : Modem) (b : Nat) : Modem × Bool :=
  let s0 := { s with uart_rx_timeout := false, timerArmed := false }
  if s0.uartRxBuffer_i = 96 then (s0, false)
  else
    let s1 := { s0 with uartRxBuffer := upd s0.uartRxBuffer s0.uartRxBuffer_i b,
                        uartRxBuffer_i := (s0.uartRxBuffer_i + 1) % 256 }
    if b = 10 then ({ s1 with data_to_send := s1.uartRxBuffer_i }, true)
    else ({ s1 with timerArmed := true }, false)

/-- Models the RX case of `USCI_A0_ISR` (src lines 433-442): the handler
runs `handle_uart_rx_byte` and clears the low-power mode bits on exit
exactly when it returned 1.  The `Bool` is true iff the LPM bits are
cleared (supervisor woken). -/
def usci_a0_isr_rx (s : Modem) (b : Nat) : Modem × Bool :=
  handle_uart_rx_byte s b

/-- Models `TIMER1_A0_ISR` (src lines 706-714): `timer_clear()`, then if
the UART RX buffer is nonempty set `data_to_send = 1` and
`uart_rx_timeout = 1`.  The source contains no LPM-bit clearing in this
handler, so the returned wake `Bool` is false on every path. -/
def timer1_a0_isr (s : Modem) : Modem × Bool :=
  let s0 := { s with uart_rx_timeout := false, timerArmed := false }
  if 0 < s0.uartRxBuffer_i then
    ({ s0 with data_to_send := 1, uart_rx_timeout := true }, false)
  else (s0, false)

/-- Models the newline scan in `send_next_msg` (src lines 154-159):
`for (x = 0; x < data_to_send; x++) if (UartRxBuffer[x] == '\n') { len = x + 1; break; }`.
`fuel` is the number of positions left to examine (`bound - x`). -/
def scanNewlineAux (buf : Nat → Nat) (x : Nat) : Nat → Option Nat
  | 0 => none
  | fuel + 1 => if buf x = 10 then some (x + 1) else scanNewlineAux buf (x + 1) fuel

/-- Scan `buf[0..bound)` for the first newline; `some (x+1)` on a hit. -/
def scanNewline (buf : Nat → Nat) (bound : Nat) : Option Nat :=
  scanNewlineAux buf 0 bound

/-- Models the residue shift in `send_next_msg` (src lines 180-182):
`for (x = 0; x < count; ++x) UartRxBuffer[x] = UartRxBuffer[x+len];`,
performed sequentially in increasing `x` order. -/
def shiftLoop (buf : Nat → Nat) (len : Nat) : Nat → (Nat → Nat)
  | 0 => buf
  | n + 1 =>
    let b := shiftLoop buf len n
    upd b n (b (n + len))

/-- Models `send_next_msg` (src lines 140-205).  On UART RX timeout the
whole buffer is taken (`len = UartRxBuffer_i`, a `signed char`
assignment); otherwise the first newline among `UartRxBuffer[0..data_to_send)`
decides `len`.  `len == 0 || len == -1` clears everything and sends
nothing; otherwise the frame `[len][message bytes]` is built in
`RfTxBuffer` and transmitted, the residue (if any) is shifted to the
front with `UartRxBuffer_i -= len` (an `unsigned char` update that can
wrap), receive mode is stopped and `rf_transmitting` set. -/
def send_next_msg (s : Modem) : Modem :=
  let r : Int × Modem :=
    if s.uart_rx_timeout then
      (sc8 (s.uartRxBuffer_i : Int), { s with uart_rx_timeout := false })
    else
      ((match scanNewline s.uartRxBuffer s.data_to_send with
        | some l => sc8 (l : Int)
        | none => -1), s)
  let len := r.1
  let s1 := r.2
  if len = 0 ∨ len = -1 then
    { s1 with data_to_send := 0, uartRxBuffer_i := 0 }
  else
    let n := len.toNat
    let frame := uc8 len :: (List.range n).map s1.uartRxBuffer
    let s2 :=
      if len = (s1.uartRxBuffer_i : Int) then
        { s1 with uartRxBuffer_i := 0, data_to_send := 0 }
      else
        { s1 with
            uartRxBuffer := shiftLoop s1.uartRxBuffer n
              (((s1.uartRxBuffer_i : Int) - len).toNat),
            uartRxBuffer_i := uc8 ((s1.uartRxBuffer_i : Int) - len) }
    let s3 := if s2.rf_receiving then { s2 with rf_receiving := false } else s2
    { s3 with rf_transmitting := true, sentFrames := s3.sentFrames ++ [frame] }

/-- Models the digit loop of `sc_itoa` (src lines 655-661):
`while (--index >= 0) { str[index] = (value % 10) + '0'; if (value < 10) break; value /= 10; }`.
`index` is the current (pre-decrement) index; the result pairs the store
with the C variable `index` after the loop (−1 when the loop ran out). -/
def itoa_digits (value : Int) (buf : Nat → Nat) (base : Nat) : Nat → (Nat → Nat) × Int
  | 0 => (buf, -1)
  | i + 1 =>
    let b2 := upd buf (base + i) ((value % 10 + 48).toNat)
    if value < 10 then (b2, (i : Int))
    else itoa_digits (value / 10) b2 base i

/-- Models the compaction loop of `sc_itoa` (src lines 677-680):
`for (i = 0; i < n; i++) str[i + start] = str[i + extra];`,
performed sequentially in increasing `i` order. -/
def itoa_move (buf : Nat → Nat) (base start extra : Nat) : Nat → (Nat → Nat)
  | 0 => buf
  | n + 1 =>
    let b := itoa_move buf base start extra n
    upd b (base + n + start) (b (base + n + extra))

/-- Models `sc_itoa` (src lines 639-686) writing into the byte store at
offset `base` with room parameter `len`: digit loop, overflow check
(writes `'\0'` at `str[0]` and returns 0), optional minus sign,
compaction to the front, trailing `'\0'`, returning the string length. -/
def sc_itoa (value0 : Int) (buf : Nat → Nat) (base : Nat) (len : Int) : (Nat → Nat) × Int :=
  let negative : Bool := decide (value0 < 0)
  let value : Int := if value0 < 0 then -value0 else value0
  let r := itoa_digits value buf base len.toNat
  let buf1 := r.1
  let index := r.2
  if index < 1 ∨ (negative = true ∧ index < 2) then
    (upd buf1 base 0, 0)
  else
    let start : Nat := if negative then 1 else 0
    let buf2 := if negative then upd buf1 base 45 else buf1
    let extra := index.toNat
    let n := (len - index).toNat
    let buf3 := itoa_move buf2 base start extra n
    let str_len := len - index + start
    (upd buf3 (base + str_len.toNat) 0, str_len)

/-- Models the payload copy of `handle_rf_rx_packet` (src lines 587-589):
`for (x = 0; x < n; ++x) UartTxBuffer[UartTxBufferLength + x] = RfRxBuffer[x+1];`. -/
def copyPayload (frame : List Nat) (buf : Nat → Nat) (base : Nat) : Nat → (Nat → Nat)
  | 0 => buf
  | x + 1 =>
    upd (copyPayload frame buf base x) (base + x) (frame.getD (x + 1) 0)

/-- Models one diagnostic block of `handle_rf_rx_packet`
(src lines 592-605 and 607-620): `max_len = UART_BUF_LEN - UartTxBufferLength`
(an `unsigned char`), `len = sc_itoa(value, buf, max_len)` (a `char`),
the `'X'` placeholder when `len == 0`, the separator byte written at
`UartTxBufferLength + len` with `len` post-incremented, and
`UartTxBufferLength += len`. -/
def rf_append_value (buf : Nat → Nat) (txLen : Nat) (value : Nat) (sep : Nat) :
    (Nat → Nat) × Nat :=
  let max_len : Nat := uc8 (96 - (txLen : Int))
  let r := sc_itoa (value : Int) buf txLen (max_len : Int)
  let l0 : Int := sc8 r.2
  let p : (Nat → Nat) × Int := if l0 = 0 then (upd r.1 txLen 88, 1) else (r.1, l0)
  let buf2 := upd p.1 (txLen + p.2.toNat) sep
  (buf2, uc8 ((txLen : Int) + p.2 + 1))

/-- Models `handle_rf_rx_packet` (src lines 549-633).  Inputs: whether the
radio status query decoded to IDLE, and the raw frame read from the RX
FIFO (`RXBYTES` reports its length, an 8-bit register).  A status
mismatch, a frame shorter than 5 bytes, or a clear CRC_OK bit (0x80 of
the last byte) set `rf_error` and zero `RfRxBufferLength`; a frame whose
payload does not fit the UART TX buffer is dropped without touching
`rf_error`; otherwise the payload (all bytes except the length byte and
the two trailing status bytes) is appended to `UartTxBuffer`, followed by
the two diagnostic blocks (decimal RSSI, a space, decimal CRC/LQI byte, a
newline). -/
def handle_rf_rx_packet (s : Modem) (statusIdle : Bool) (frame : List Nat) : Modem :=
  let s0 := { s with rf_receiving := false }
  if statusIdle = false then
    { s0 with rf_error := true, rfRxBufferLength := 0 }
  else
    let len := frame.length % 256
    if len < 5 then
      { s0 with rf_error := true, rfRxBufferLength := 0 }
    else if frame.getD (len - 1) 0 &&& 128 = 0 then
      { s0 with rf_error := true, rfRxBufferLength := 0 }
    else if 96 < s0.uartTxBufferLength + (len - 3) then
      { s0 with rfRxBufferLength := 0 }
    else
      let buf1 := copyPayload frame s0.uartTxBuffer s0.uartTxBufferLength (len - 3)
      let t1 := (s0.uartTxBufferLength + (len - 3)) % 256
      let r1 := rf_append_value buf1 t1 (frame.getD (len - 2) 0) 32
      let r2 := rf_append_value r1.1 r1.2 (frame.getD (len - 1) 0) 10
      { s0 with rfRxBufferLength := len, uartTxBuffer := r2.1, uartTxBufferLength := r2.2 }

/-- Models the RFIFG9 case of `CC1101_ISR` (src lines 515-530): if
receiving, handle the received packet; then if transmitting, clear
`rf_transmitting`. -/
def cc1101_isr (s : Modem) (statusIdle : Bool) (frame : List Nat) : Modem :=
  let s1 := if s.rf_receiving then handle_rf_rx_packet s statusIdle frame else s
  if s1.rf_transmitting then { s1 with rf_transmitting := false } else s1

/-- Events that advance the modem state: the hardware interrupt handlers
and the two supervisor-loop actions of `main` (src lines 93-133). -/
inductive Ev where
  | uartByte : Nat → Ev
  | timerFire : Ev
  | rfEvent : Bool → List Nat → Ev
  | startListen : Ev
  | dispatch : Ev
deriving Repr

/-- One atomic step.  `startListen` is the first branch of the main loop
(guarded by `!rf_transmitting && !rf_receiving`; a pending `rf_error`
forces a radio reset that clears it, then listening starts).  `dispatch`
is the send branch (guarded by `!rf_transmitting && data_to_send`).
`timerFire` only happens while the timer is armed.  Interrupts are
disabled for the whole of `send_next_msg`, so each event is atomic. -/
def step (s : Modem) : Ev → Modem
  | .uartByte b => (handle_uart_rx_byte s b).1
  | .timerFire => if s.timerArmed then (timer1_a0_isr s).1 else s
  | .rfEvent statusIdle frame => cc1101_isr s statusIdle frame
  | .startListen =>
      if s.rf_transmitting = false ∧ s.rf_receiving = false then
        let s1 := if s.rf_error then { s with rf_error := false } else s
        { s1 with rf_receiving := true }
      else s
  | .dispatch =>
      if s.rf_transmitting = false ∧ s.data_to_send ≠ 0 then send_next_msg s else s

/-- Run a sequence of events from a state. -/
def runEvents (s : Modem) : List Ev → Modem
  | [] => s
  | e :: es => runEvents (step s e) es

/-- The radio frame built for a message by `send_next_msg`
(src lines 171-176): one length byte followed by the payload bytes. -/
def rf_frame (msg : List Nat) : List Nat := msg.length % 256 :: msg

/-- Reads `n` consecutive bytes of a store starting at `start`. -/
def bufSlice (buf : Nat → Nat) (start n : Nat) : List Nat :=
  (List.range n).map fun k => buf (start + k)

/-- The payload bytes the decode path of `handle_rf_rx_packet` copies out of
a received frame: bytes 1 through `length − 3` (everything except the
length byte and the two trailing status bytes). -/
def rfPayload (frame : List Nat) : List Nat :=
  (List.range (frame.length - 3)).map fun x => frame.getD (x + 1) 0

/-- Decimal digit characters of `n`, most significant first (the string
`sc_itoa` produces for a nonnegative value, given enough room).  Defined
with explicit fuel so that it reduces definitionally. -/
def decDigitsAux : Nat → Nat → List Nat
  | 0, _ => []
  | fuel + 1, v =>
    if v < 10 then [v + 48] else decDigitsAux fuel (v / 10) ++ [v % 10 + 48]

/-- Decimal digit characters of `v`, most significant first. -/
def decDigits (v : Nat) : List Nat := decDigitsAux (v + 1) v

/-- Writes the bytes of `l` consecutively starting at `p`. -/
def writeList (buf : Nat → Nat) (p : Nat) : List Nat → (Nat → Nat)
  | [] => buf
  | b :: rest => writeList (upd buf p b) (p + 1) rest

/-! ## Basic lemmas about the store helpers -/

theorem upd_same (f : Nat → Nat) (i v : Nat) : upd f i v i = v := by
  simp [upd]

theorem upd_ne (f : Nat → Nat) (i v k : Nat) (h : k ≠ i) : upd f i v k = f k := by
  simp [upd, h]

theorem upd_comm (f : Nat → Nat) (i j u v : Nat) (h : i ≠ j) :
    upd (upd f i u) j v = upd (upd f j v) i u := by
  funext k
  by_cases h1 : k = i
  · subst h1; simp [upd, h]
  · by_cases h2 : k = j
    · subst h2; simp [upd, h1]
    · simp [upd, h1, h2]

theorem uc8_ofNat (n : Nat) (h : n < 256) : uc8 (n : Int) = n := by
  simp [uc8]
  omega

theorem sc8_ofNat (n : Nat) (h : n < 128) : sc8 (n : Int) = (n : Int) := by
  simp [sc8]
  omega

theorem uc8_sub (a b : Nat) (h : b ≤ a) (h2 : a - b < 256) :
    uc8 ((a : Int) - (b : Int)) = a - b := by
  simp [uc8]
  omega

/-! ## writeList lemmas -/

theorem writeList_outside (l : List Nat) : ∀ (buf : Nat → Nat) (p k : Nat),
    (k < p ∨ p + l.length ≤ k) → writeList buf p l k = buf k := by
  induction l with
  | nil => intro buf p k _; rfl
  | cons b rest ih =>
    intro buf p k hk
    simp only [writeList]
    rw [ih (upd buf p b) (p + 1) k (by simp at hk ⊢; omega)]
    exact upd_ne buf p b k (by simp at hk; omega)

theorem writeList_getD (l : List Nat) : ∀ (buf : Nat → Nat) (p i : Nat),
    i < l.length → writeList buf p l (p + i) = l.getD i 0 := by
  induction l with
  | nil => intro buf p i h; simp at h
  | cons b rest ih =>
    intro buf p i h
    simp only [writeList]
    match i with
    | 0 =>
      rw [writeList_outside rest (upd buf p b) (p + 1) (p + 0) (by omega)]
      simp [upd_same]
    | Nat.succ j =>
      have : p + (j + 1) = (p + 1) + j := by omega
      rw [this, ih (upd buf p b) (p + 1) j (by simp at h; omega)]
      simp

theorem writeList_append (l1 l2 : List Nat) : ∀ (buf : Nat → Nat) (p : Nat),
    writeList buf p (l1 ++ l2) = writeList (writeList buf p l1) (p + l1.length) l2 := by
  induction l1 with
  | nil => intro buf p; simp [writeList]
  | cons b rest ih =>
    intro buf p
    simp only [List.cons_append, writeList]
    show writeList (upd buf p b) (p + 1) (rest ++ l2) = _
    rw [ih (upd buf p b) (p + 1)]
    have harith : p + 1 + rest.length = p + (b :: rest).length := by simp; omega
    rw [harith]

theorem writeList_upd_comm (l : List Nat) : ∀ (buf : Nat → Nat) (p q a : Nat),
    (q < p ∨ p + l.length ≤ q) →
    writeList (upd buf q a) p l = upd (writeList buf p l) q a := by
  induction l with
  | nil => intro buf p q a _; rfl
  | cons b rest ih =>
    intro buf p q a hq
    simp only [writeList]
    rw [upd_comm buf q p a b (by simp at hq; omega)]
    exact ih (upd buf p b) (p + 1) q a (by simp at hq ⊢; omega)

/-! ## decDigits lemmas -/

theorem decDigitsAux_fuel (v : Nat) : ∀ f1 f2 : Nat, v < f1 → v < f2 →
    decDigitsAux f1 v = decDigitsAux f2 v := by
  induction v using Nat.strong_induction_on with
  | _ v ih =>
    intro f1 f2 h1 h2
    match f1, f2 with
    | g1 + 1, g2 + 1 =>
      by_cases hv : v < 10
      · simp [decDigitsAux, hv]
      · have hd : v / 10 < v := Nat.div_lt_self (by omega) (by omega)
        simp only [decDigitsAux, if_neg hv]
        rw [ih (v / 10) hd g1 g2 (by omega) (by omega)]

theorem decDigits_lt10 (v : Nat) (h : v < 10) : decDigits v = [v + 48] := by
  simp [decDigits, decDigitsAux, h]

theorem decDigits_ge10 (v : Nat) (h : 10 ≤ v) :
    decDigits v = decDigits (v / 10) ++ [v % 10 + 48] := by
  have hd : v / 10 < v := Nat.div_lt_self (by omega) (by omega)
  have hstep : decDigitsAux (v + 1) v = decDigitsAux v (v / 10) ++ [v % 10 + 48] := by
    simp only [decDigitsAux, if_neg (by omega : ¬v < 10)]
  show decDigitsAux (v + 1) v = decDigitsAux (v / 10 + 1) (v / 10) ++ [v % 10 + 48]
  rw [hstep, decDigitsAux_fuel (v / 10) v (v / 10 + 1) (by omega) (by omega)]

theorem decDigits_length_pos (v : Nat) : 0 < (decDigits v).length := by
  by_cases h : v < 10
  · rw [decDigits_lt10 v h]; simp
  · rw [decDigits_ge10 v (by omega)]; simp

theorem decDigits_length_le (v : Nat) (h : v < 1000) : (decDigits v).length ≤ 3 := by
  by_cases h1 : v < 10
  · rw [decDigits_lt10 v h1]; simp
  · rw [decDigits_ge10 v (by omega)]
    by_cases h2 : v / 10 < 10
    · rw [decDigits_lt10 _ h2]; simp
    · rw [decDigits_ge10 _ (by omega)]
      rw [decDigits_lt10 (v / 10 / 10) (by omega)]
      simp

/-! ## shiftLoop lemmas -/

theorem shiftLoop_outside (buf : Nat → Nat) (len : Nat) : ∀ n k, n ≤ k →
    shiftLoop buf len n k = buf k := by
  intro n
  induction n with
  | zero => intro k _; rfl
  | succ m ih =>
    intro k hk
    simp only [shiftLoop]
    rw [upd_ne _ _ _ _ (by omega)]
    exact ih k (by omega)

theorem shiftLoop_inside (buf : Nat → Nat) (len : Nat) : ∀ n k, k < n →
    shiftLoop buf len n k = buf (k + len) := by
  intro n
  induction n with
  | zero => intro k hk; omega
  | succ m ih =>
    intro k hk
    simp only [shiftLoop]
    by_cases hkm : k = m
    · subst hkm
      rw [upd_same]
      rw [shiftLoop_outside buf len k (k + len) (by omega)]
    · rw [upd_ne _ _ _ _ hkm]
      exact ih k (by omega)

/-! ## scanNewline lemmas -/

theorem scanNewlineAux_found (buf : Nat → Nat) : ∀ (fuel x p : Nat),
    x ≤ p → p < x + fuel → buf p = 10 → (∀ k, x ≤ k → k < p → buf k ≠ 10) →
    scanNewlineAux buf x fuel = some (p + 1) := by
  intro fuel
  induction fuel with
  | zero => intro x p h1 h2 _ _; omega
  | succ m ih =>
    intro x p h1 h2 hp hbefore
    by_cases hx : x = p
    · subst hx
      simp [scanNewlineAux, hp]
    · have hne : buf x ≠ 10 := hbefore x (by omega) (by omega)
      simp only [scanNewlineAux, if_neg hne]
      exact ih (x + 1) p (by omega) (by omega) hp (fun k hk1 hk2 => hbefore k (by omega) hk2)

theorem scanNewline_found (buf : Nat → Nat) (bound p : Nat)
    (h1 : p < bound) (h2 : buf p = 10) (h3 : ∀ k, k < p → buf k ≠ 10) :
    scanNewline buf bound = some (p + 1) :=
  scanNewlineAux_found buf bound 0 p (by omega) (by omega) h2
    (fun k _ hk2 => h3 k hk2)

/-! ## copyPayload lemmas -/

theorem copyPayload_outside (frame : List Nat) (buf : Nat → Nat) (base : Nat) :
    ∀ n k, (k < base ∨ base + n ≤ k) → copyPayload frame buf base n k = buf k := by
  intro n
  induction n with
  | zero => intro k _; rfl
  | succ m ih =>
    intro k hk
    simp only [copyPayload]
    rw [upd_ne _ _ _ _ (by omega)]
    exact ih k (by omega)

theorem copyPayload_inside (frame : List Nat) (buf : Nat → Nat) (base : Nat) :
    ∀ n x, x < n → copyPayload frame buf base n (base + x) = frame.getD (x + 1) 0 := by
  intro n
  induction n with
  | zero => intro x hx; omega
  | succ m ih =>
    intro x hx
    simp only [copyPayload]
    by_cases hxm : x = m
    · subst hxm; rw [upd_same]
    · rw [upd_ne _ _ _ _ (by omega)]
      exact ih x (by omega)

/-! ## itoa_move lemmas -/

theorem itoa_move_outside (buf : Nat → Nat) (base start extra : Nat) :
    ∀ n k, (k < base + start ∨ base + start + n ≤ k) →
    itoa_move buf base start extra n k = buf k := by
  intro n
  induction n with
  | zero => intro k _; rfl
  | succ m ih =>
    intro k hk
    simp only [itoa_move]
    rw [upd_ne _ _ _ _ (by omega)]
    exact ih k (by omega)

theorem itoa_move_inside (buf : Nat → Nat) (base start extra : Nat) (hse : start ≤ extra) :
    ∀ n i, i < n →
    itoa_move buf base start extra n (base + start + i) = buf (base + i + extra) := by
  intro n
  induction n with
  | zero => intro i hi; omega
  | succ m ih =>
    intro i hi
    simp only [itoa_move]
    by_cases him : i = m
    · subst him
      have : base + start + i = base + i + start := by omega
      rw [this, upd_same]
      rw [itoa_move_outside buf base start extra i (base + i + extra) (by omega)]
    · rw [upd_ne _ _ _ _ (by omega)]
      exact ih i (by omega)

/-! ## itoa_digits lemmas -/

theorem itoa_digits_low (base : Nat) : ∀ (index : Nat) (value : Int) (buf : Nat → Nat)
    (k : Nat), k < base → (itoa_digits value buf base index).1 k = buf k := by
  intro index
  induction index with
  | zero => intro value buf k _; rfl
  | succ i ih =>
    intro value buf k hk
    simp only [itoa_digits]
    by_cases hv : value < 10
    · simp only [if_pos hv]
      exact upd_ne _ _ _ _ (by omega)
    · simp only [if_neg hv]
      rw [ih (value / 10) _ k hk]
      exact upd_ne _ _ _ _ (by omega)

theorem itoa_digits_spec (v : Nat) : ∀ (buf : Nat → Nat) (base index : Nat),
    (decDigits v).length ≤ index →
    itoa_digits (v : Int) buf base index =
      (writeList buf (base + (index - (decDigits v).length)) (decDigits v),
       ((index - (decDigits v).length : Nat) : Int)) := by
  induction v using Nat.strong_induction_on with
  | _ v ih =>
    intro buf base index hle
    by_cases hv : v < 10
    · rw [decDigits_lt10 v hv] at hle ⊢
      simp only [List.length_singleton] at hle
      obtain ⟨i, rfl⟩ : ∃ i, index = i + 1 := ⟨index - 1, by omega⟩
      simp only [itoa_digits]
      have h10 : (v : Int) < 10 := by exact_mod_cast hv
      rw [if_pos h10]
      have hmod : ((v : Int) % 10 + 48).toNat = v + 48 := by omega
      rw [hmod]
      have hidx : i + 1 - [v + 48].length = i := by simp
      rw [hidx]
      simp [writeList]
    · have hv10 : 10 ≤ v := by omega
      rw [decDigits_ge10 v hv10] at hle ⊢
      have hlen : (decDigits (v / 10) ++ [v % 10 + 48]).length
          = (decDigits (v / 10)).length + 1 := by simp
      rw [hlen] at hle
      obtain ⟨i, rfl⟩ : ∃ i, index = i + 1 := ⟨index - 1, by omega⟩
      have hd'le : (decDigits (v / 10)).length ≤ i := by omega
      simp only [itoa_digits]
      have h10 : ¬((v : Int) < 10) := by omega
      rw [if_neg h10]
      have hcast1 : (v : Int) / 10 = ((v / 10 : Nat) : Int) := by omega
      have hcast2 : ((v : Int) % 10 + 48).toNat = v % 10 + 48 := by omega
      rw [hcast1, hcast2]
      rw [ih (v / 10) (Nat.div_lt_self (by omega) (by omega)) _ base i hd'le]
      rw [hlen]
      have hpd : base + (i - (decDigits (v / 10)).length) + (decDigits (v / 10)).length
          = base + i := by omega
      have heq : writeList (upd buf (base + i) (v % 10 + 48))
            (base + (i - (decDigits (v / 10)).length)) (decDigits (v / 10))
          = writeList buf (base + (i + 1 - ((decDigits (v / 10)).length + 1)))
            (decDigits (v / 10) ++ [v % 10 + 48]) := by
        rw [writeList_append]
        rw [writeList_upd_comm (decDigits (v / 10)) buf
          (base + (i - (decDigits (v / 10)).length)) (base + i) (v % 10 + 48)
          (by omega)]
        have hidx2 : i + 1 - ((decDigits (v / 10)).length + 1)
            = i - (decDigits (v / 10)).length := by omega
        rw [hidx2, hpd]
        simp [writeList]
      rw [heq]
      have hsnd : ((i - (decDigits (v / 10)).length : Nat) : Int)
          = ((i + 1 - ((decDigits (v / 10)).length + 1) : Nat) : Int) := by
        congr 1
        omega
      rw [hsnd]

/-! ## sc_itoa lemmas -/

theorem sc_itoa_low (value0 : Int) (buf : Nat → Nat) (base : Nat) (len : Int) :
    ∀ k, k < base → (sc_itoa value0 buf base len).1 k = buf k := by
  intro k hk
  simp only [sc_itoa]
  set V : Int := if value0 < 0 then -value0 else value0 with hV
  split
  · show upd (itoa_digits V buf base len.toNat).1 base 0 k = buf k
    rw [upd_ne _ _ _ _ (by omega)]
    exact itoa_digits_low base _ _ _ k hk
  · dsimp only
    rw [upd_ne _ _ _ _ (by omega)]
    rw [itoa_move_outside _ _ _ _ _ k (by omega)]
    split
    · rw [upd_ne _ _ _ _ (by omega)]
      exact itoa_digits_low base _ _ _ k hk
    · exact itoa_digits_low base _ _ _ k hk

theorem sc_itoa_eq (v len base : Nat) (buf : Nat → Nat)
    (h : (decDigits v).length + 1 ≤ len) :
    sc_itoa (v : Int) buf base (len : Int) =
      (upd (itoa_move (writeList buf (base + (len - (decDigits v).length)) (decDigits v))
            base 0 (len - (decDigits v).length) (decDigits v).length)
        (base + (decDigits v).length) 0,
       ((decDigits v).length : Int)) := by
  have hneg : ¬((v : Int) < 0) := by omega
  have hdecf : (decide ((v : Int) < 0)) = false := by simp [hneg]
  have hd : (decDigits v).length ≤ len := by omega
  simp only [sc_itoa, if_neg hneg, hdecf]
  have htn : ((len : Int)).toNat = len := by omega
  rw [htn]
  rw [itoa_digits_spec v buf base len hd]
  dsimp only
  have hcond : ¬(((len - (decDigits v).length : Nat) : Int) < 1
      ∨ False = True ∧ ((len - (decDigits v).length : Nat) : Int) < 2) := by
    simp
    omega
  simp only [Bool.false_eq_true, false_and]
  have hextra : ((len - (decDigits v).length : Nat) : Int).toNat
      = len - (decDigits v).length := by omega
  have hn : ((len : Int) - ((len - (decDigits v).length : Nat) : Int)).toNat
      = (decDigits v).length := by omega
  rw [hextra, hn]
  have hsl2 : (len : Int) - ((len - (decDigits v).length : Nat) : Int)
      = ((decDigits v).length : Int) := by omega
  rw [hsl2]
  have hcond2 : ¬(((len - (decDigits v).length : Nat) : Int) < 1 ∨ False) := by
    simp
    omega
  rw [if_neg hcond2]
  norm_num

theorem sc_itoa_val (v len base : Nat) (buf : Nat → Nat)
    (h : (decDigits v).length + 1 ≤ len) :
    (sc_itoa (v : Int) buf base (len : Int)).2 = ((decDigits v).length : Int) := by
  rw [sc_itoa_eq v len base buf h]

theorem sc_itoa_digit (v len base : Nat) (buf : Nat → Nat)
    (h : (decDigits v).length + 1 ≤ len) :
    ∀ j, j < (decDigits v).length →
      (sc_itoa (v : Int) buf base (len : Int)).1 (base + j) = (decDigits v).getD j 0 := by
  intro j hj
  rw [sc_itoa_eq v len base buf h]
  dsimp only
  rw [upd_ne _ _ _ _ (by omega)]
  have hpos : base + j = base + 0 + j := by omega
  rw [hpos]
  rw [itoa_move_inside _ base 0 (len - (decDigits v).length) (by omega) _ j hj]
  have hpos2 : base + j + (len - (decDigits v).length)
      = base + (len - (decDigits v).length) + j := by omega
  rw [hpos2]
  exact writeList_getD (decDigits v) buf (base + (len - (decDigits v).length)) j hj

/-! ## rf_append_value lemmas -/

theorem rf_append_low (buf : Nat → Nat) (txLen v sep : Nat) :
    ∀ k, k < txLen → (rf_append_value buf txLen v sep).1 k = buf k := by
  intro k hk
  simp only [rf_append_value]
  rw [upd_ne _ _ _ _ (by omega)]
  split
  · dsimp only
    rw [upd_ne _ _ _ _ (by omega)]
    exact sc_itoa_low _ buf txLen _ k hk
  · exact sc_itoa_low _ buf txLen _ k hk

theorem rf_append_spec (buf : Nat → Nat) (txLen v sep : Nat)
    (hv : v < 256) (hfit : txLen + 4 ≤ 96) :
    (rf_append_value buf txLen v sep).2 = txLen + (decDigits v).length + 1
    ∧ (∀ j, j < (decDigits v).length →
        (rf_append_value buf txLen v sep).1 (txLen + j) = (decDigits v).getD j 0)
    ∧ (rf_append_value buf txLen v sep).1 (txLen + (decDigits v).length) = sep := by
  have hd3 : (decDigits v).length ≤ 3 := decDigits_length_le v (by omega)
  have hd1 : 0 < (decDigits v).length := decDigits_length_pos v
  have hml : uc8 (96 - (txLen : Int)) = 96 - txLen := by
    simp only [uc8]
    omega
  have hlen : (decDigits v).length + 1 ≤ 96 - txLen := by omega
  have hval : (sc_itoa (v : Int) buf txLen (((96 - txLen : Nat) : Nat) : Int)).2
      = ((decDigits v).length : Int) := sc_itoa_val v (96 - txLen) txLen buf hlen
  have hsc8 : sc8 ((decDigits v).length : Int) = ((decDigits v).length : Int) :=
    sc8_ofNat (decDigits v).length (by omega)
  have hl0 : ¬(sc8 (sc_itoa (v : Int) buf txLen (((96 - txLen : Nat)) : Int)).2 = 0) := by
    rw [hval, hsc8]
    omega
  simp only [rf_append_value, hml]
  rw [if_neg hl0]
  dsimp only
  rw [hval, hsc8]
  have htn : (((decDigits v).length : Int)).toNat = (decDigits v).length := by omega
  rw [htn]
  refine ⟨?_, ?_, ?_⟩
  · show uc8 ((txLen : Int) + ((decDigits v).length : Int) + 1)
        = txLen + (decDigits v).length + 1
    have : (txLen : Int) + ((decDigits v).length : Int) + 1
        = ((txLen + (decDigits v).length + 1 : Nat) : Int) := by omega
    rw [this]
    exact uc8_ofNat _ (by omega)
  · intro j hj
    rw [upd_ne _ _ _ _ (by omega)]
    exact sc_itoa_digit v (96 - txLen) txLen buf hlen j hj
  · exact upd_same _ _ _

/-! ## handle_rf_rx_packet lemmas -/

theorem handle_rf_spec (s : Modem) (frame : List Nat)
    (h5 : 5 ≤ frame.length) (h256 : frame.length < 256)
    (hcrc : ¬(frame.getD (frame.length - 1) 0 &&& 128 = 0))
    (hfit : s.uartTxBufferLength + (frame.length - 3) + 8 ≤ 96)
    (hrssi : frame.getD (frame.length - 2) 0 < 256)
    (hstat : frame.getD (frame.length - 1) 0 < 256) :
    (handle_rf_rx_packet s true frame).rf_error = s.rf_error
    ∧ (handle_rf_rx_packet s true frame).rf_receiving = false
    ∧ (handle_rf_rx_packet s true frame).uartTxBufferLength
        = s.uartTxBufferLength + (frame.length - 3)
          + (decDigits (frame.getD (frame.length - 2) 0)).length + 1
          + (decDigits (frame.getD (frame.length - 1) 0)).length + 1
    ∧ (∀ k, k < s.uartTxBufferLength →
        (handle_rf_rx_packet s true frame).uartTxBuffer k = s.uartTxBuffer k)
    ∧ (∀ x, x < frame.length - 3 →
        (handle_rf_rx_packet s true frame).uartTxBuffer (s.uartTxBufferLength + x)
          = frame.getD (x + 1) 0)
    ∧ (∀ j, j < (decDigits (frame.getD (frame.length - 2) 0)).length →
        (handle_rf_rx_packet s true frame).uartTxBuffer
            (s.uartTxBufferLength + (frame.length - 3) + j)
          = (decDigits (frame.getD (frame.length - 2) 0)).getD j 0)
    ∧ (handle_rf_rx_packet s true frame).uartTxBuffer
          (s.uartTxBufferLength + (frame.length - 3)
            + (decDigits (frame.getD (frame.length - 2) 0)).length) = 32
    ∧ (∀ j, j < (decDigits (frame.getD (frame.length - 1) 0)).length →
        (handle_rf_rx_packet s true frame).uartTxBuffer
            (s.uartTxBufferLength + (frame.length - 3)
              + (decDigits (frame.getD (frame.length - 2) 0)).length + 1 + j)
          = (decDigits (frame.getD (frame.length - 1) 0)).getD j 0)
    ∧ (handle_rf_rx_packet s true frame).uartTxBuffer
          (s.uartTxBufferLength + (frame.length - 3)
            + (decDigits (frame.getD (frame.length - 2) 0)).length + 1
            + (decDigits (frame.getD (frame.length - 1) 0)).length) = 10 := by
  have hmod : frame.length % 256 = frame.length := Nat.mod_eq_of_lt h256
  have ht1 : (s.uartTxBufferLength + (frame.length - 3)) % 256
      = s.uartTxBufferLength + (frame.length - 3) := Nat.mod_eq_of_lt (by omega)
  have hd1 : (decDigits (frame.getD (frame.length - 2) 0)).length ≤ 3 :=
    decDigits_length_le _ (by omega)
  have hd2 : (decDigits (frame.getD (frame.length - 1) 0)).length ≤ 3 :=
    decDigits_length_le _ (by omega)
  obtain ⟨hB2, hB6, hB7⟩ := rf_append_spec
    (copyPayload frame s.uartTxBuffer s.uartTxBufferLength (frame.length - 3))
    (s.uartTxBufferLength + (frame.length - 3))
    (frame.getD (frame.length - 2) 0) 32 hrssi (by omega)
  obtain ⟨hC2, hC6, hC7⟩ := rf_append_spec
    (rf_append_value
      (copyPayload frame s.uartTxBuffer s.uartTxBufferLength (frame.length - 3))
      (s.uartTxBufferLength + (frame.length - 3))
      (frame.getD (frame.length - 2) 0) 32).1
    ((rf_append_value
      (copyPayload frame s.uartTxBuffer s.uartTxBufferLength (frame.length - 3))
      (s.uartTxBufferLength + (frame.length - 3))
      (frame.getD (frame.length - 2) 0) 32).2)
    (frame.getD (frame.length - 1) 0) 10 hstat (by rw [hB2]; omega)
  have hunfold : handle_rf_rx_packet s true frame =
      { s with rf_receiving := false,
               rfRxBufferLength := frame.length,
               uartTxBuffer := (rf_append_value
                  (rf_append_value
                    (copyPayload frame s.uartTxBuffer s.uartTxBufferLength (frame.length - 3))
                    (s.uartTxBufferLength + (frame.length - 3))
                    (frame.getD (frame.length - 2) 0) 32).1
                  ((rf_append_value
                    (copyPayload frame s.uartTxBuffer s.uartTxBufferLength (frame.length - 3))
                    (s.uartTxBufferLength + (frame.length - 3))
                    (frame.getD (frame.length - 2) 0) 32).2)
                  (frame.getD (frame.length - 1) 0) 10).1,
               uartTxBufferLength := (rf_append_value
                  (rf_append_value
                    (copyPayload frame s.uartTxBuffer s.uartTxBufferLength (frame.length - 3))
                    (s.uartTxBufferLength + (frame.length - 3))
                    (frame.getD (frame.length - 2) 0) 32).1
                  ((rf_append_value
                    (copyPayload frame s.uartTxBuffer s.uartTxBufferLength (frame.length - 3))
                    (s.uartTxBufferLength + (frame.length - 3))
                    (frame.getD (frame.length - 2) 0) 32).2)
                  (frame.getD (frame.length - 1) 0) 10).2 } := by
    simp only [handle_rf_rx_packet, hmod, ht1]
    rw [if_neg (by simp), if_neg (by omega), if_neg hcrc, if_neg (by omega)]
  rw [hunfold]
  dsimp only
  refine ⟨rfl, rfl, ?_, ?_, ?_, ?_, ?_, ?_, ?_⟩
  · rw [hC2, hB2]
  · intro k hk
    rw [rf_append_low _ _ _ _ k (by rw [hB2]; omega)]
    rw [rf_append_low _ _ _ _ k (by omega)]
    exact copyPayload_outside frame s.uartTxBuffer s.uartTxBufferLength _ k (by omega)
  · intro x hx
    rw [rf_append_low _ _ _ _ _ (by rw [hB2]; omega)]
    rw [rf_append_low _ _ _ _ _ (by omega)]
    exact copyPayload_inside frame s.uartTxBuffer s.uartTxBufferLength _ x hx
  · intro j hj
    rw [rf_append_low _ _ _ _ _ (by rw [hB2]; omega)]
    exact hB6 j hj
  · rw [rf_append_low _ _ _ _ _ (by rw [hB2]; omega)]
    exact hB7
  · intro j hj
    have hpos : s.uartTxBufferLength + (frame.length - 3)
        + (decDigits (frame.getD (frame.length - 2) 0)).length + 1 + j
        = (rf_append_value
            (copyPayload frame s.uartTxBuffer s.uartTxBufferLength (frame.length - 3))
            (s.uartTxBufferLength + (frame.length - 3))
            (frame.getD (frame.length - 2) 0) 32).2 + j := by
      rw [hB2]
    rw [hpos]
    exact hC6 j hj
  · have hpos : s.uartTxBufferLength + (frame.length - 3)
        + (decDigits (frame.getD (frame.length - 2) 0)).length + 1
        + (decDigits (frame.getD (frame.length - 1) 0)).length
        = (rf_append_value
            (copyPayload frame s.uartTxBuffer s.uartTxBufferLength (frame.length - 3))
            (s.uartTxBufferLength + (frame.length - 3))
            (frame.getD (frame.length - 2) 0) 32).2
          + (decDigits (frame.getD (frame.length - 1) 0)).length := by
      rw [hB2]
    rw [hpos]
    exact hC7

/-! ## bufSlice lemmas -/

theorem bufSlice_eq_of (buf : Nat → Nat) (start : Nat) (l : List Nat)
    (h : ∀ i, i < l.length → buf (start + i) = l.getD i 0) :
    bufSlice buf start l.length = l := by
  apply List.ext_getElem (by simp [bufSlice])
  intro i h1 h2
  simp only [bufSlice, List.getElem_map, List.getElem_range]
  rw [h i h2]
  exact List.getD_eq_getElem l 0 h2

theorem bufSlice_split (buf : Nat → Nat) (start a b : Nat) :
    bufSlice buf start (a + b) = bufSlice buf start a ++ bufSlice buf (start + a) b := by
  simp only [bufSlice, List.range_add, List.map_append, List.map_map]
  congr 1
  apply List.map_congr_left
  intro k _
  simp only [Function.comp_apply]
  congr 1
  omega

theorem bufSlice_one (buf : Nat → Nat) (start : Nat) :
    bufSlice buf start 1 = [buf start] := by
  simp [bufSlice, List.range_succ]

/-! ## handle_rf_rx_packet rejection lemma -/

theorem handle_rf_reject (s : Modem) (frame : List Nat) (h256 : frame.length < 256) :
    (frame.length < 5 →
      (handle_rf_rx_packet s true frame).rf_error = true
      ∧ (handle_rf_rx_packet s true frame).rfRxBufferLength = 0
      ∧ (handle_rf_rx_packet s true frame).uartTxBufferLength = s.uartTxBufferLength
      ∧ (∀ k, (handle_rf_rx_packet s true frame).uartTxBuffer k = s.uartTxBuffer k))
    ∧ (5 ≤ frame.length → frame.getD (frame.length - 1) 0 &&& 128 = 0 →
      (handle_rf_rx_packet s true frame).rf_error = true
      ∧ (handle_rf_rx_packet s true frame).rfRxBufferLength = 0
      ∧ (handle_rf_rx_packet s true frame).uartTxBufferLength = s.uartTxBufferLength
      ∧ (∀ k, (handle_rf_rx_packet s true frame).uartTxBuffer k = s.uartTxBuffer k)) := by
  have hmod : frame.length % 256 = frame.length := Nat.mod_eq_of_lt h256
  constructor
  · intro hshort
    have hunfold : handle_rf_rx_packet s true frame =
        { s with rf_receiving := false, rf_error := true, rfRxBufferLength := 0 } := by
      simp only [handle_rf_rx_packet, hmod]
      rw [if_neg (by simp), if_pos hshort]
    rw [hunfold]
    exact ⟨rfl, rfl, rfl, fun k => rfl⟩
  · intro hlong hcrc
    have hunfold : handle_rf_rx_packet s true frame =
        { s with rf_receiving := false, rf_error := true, rfRxBufferLength := 0 } := by
      simp only [handle_rf_rx_packet, hmod]
      rw [if_neg (by simp), if_neg (by omega), if_pos hcrc]
    rw [hunfold]
    exact ⟨rfl, rfl, rfl, fun k => rfl⟩

/-! ## Claims C1-C4: the Packet Codec decode path -/

/-- Claim C1 counterexample: a payload of length 1 does not survive the
round trip.  Encoding `[10]` gives the 2-byte frame `[1, 10]`; with the
RSSI byte and a CRC-valid status byte appended the received frame has 4
bytes, which `handle_rf_rx_packet` rejects as shorter than 5: it sets
`rf_error`, appends nothing, and the decoded output is not the payload. -/
theorem C1_cex :
    (handle_rf_rx_packet initState true (rf_frame [10] ++ [0, 128])).rf_error = true
    ∧ (handle_rf_rx_packet initState true (rf_frame [10] ++ [0, 128])).uartTxBufferLength = 0
    ∧ bufSlice (handle_rf_rx_packet initState true (rf_frame [10] ++ [0, 128])).uartTxBuffer
        0 (handle_rf_rx_packet initState true (rf_frame [10] ++ [0, 128])).uartTxBufferLength
      ≠ [10] := by
  decide

/-- Claim C1 (amended): for every payload of length 2..C (C = 32 bytes),
encoding it as a radio frame (one length byte followed by the payload
bytes) and decoding that frame with an RSSI byte and a CRC-valid status
byte appended returns the original payload unchanged and flags no error;
a payload of length 1 yields a 4-byte received frame, below the decoder's
5-byte minimum, and is rejected instead. -/
theorem C1_roundtrip (msg : List Nat) (rssi stat : Nat)
    (h2 : 2 ≤ msg.length) (h32 : msg.length ≤ 32)
    (hrssi : rssi < 256) (hstat : stat < 256)
    (hcrc : stat &&& 128 ≠ 0) :
    bufSlice (handle_rf_rx_packet initState true (rf_frame msg ++ [rssi, stat])).uartTxBuffer
        0 msg.length = msg
    ∧ (handle_rf_rx_packet initState true (rf_frame msg ++ [rssi, stat])).rf_error = false := by
  have hrf : (rf_frame msg).length = msg.length + 1 := by simp [rf_frame]
  have hflen : (rf_frame msg ++ [rssi, stat]).length = msg.length + 3 := by
    simp [rf_frame]
  have hstat_get : (rf_frame msg ++ [rssi, stat]).getD (msg.length + 2) 0 = stat := by
    rw [List.getD_append_right _ _ _ _ (by omega)]
    have h1 : msg.length + 2 - (rf_frame msg).length = 1 := by rw [hrf]; omega
    rw [h1]
    rfl
  have hrssi_get : (rf_frame msg ++ [rssi, stat]).getD (msg.length + 1) 0 = rssi := by
    rw [List.getD_append_right _ _ _ _ (by omega)]
    have h1 : msg.length + 1 - (rf_frame msg).length = 0 := by rw [hrf]; omega
    rw [h1]
    rfl
  have hpay : ∀ x, x < msg.length →
      (rf_frame msg ++ [rssi, stat]).getD (x + 1) 0 = msg.getD x 0 := by
    intro x hx
    rw [List.getD_append _ _ _ _ (by rw [hrf]; omega)]
    show (msg.length % 256 :: msg).getD (x + 1) 0 = msg.getD x 0
    rw [List.getD_cons_succ]
  have hL1 : (rf_frame msg ++ [rssi, stat]).length - 1 = msg.length + 2 := by
    rw [hflen]
    omega
  have hL2 : (rf_frame msg ++ [rssi, stat]).length - 2 = msg.length + 1 := by
    rw [hflen]
    omega
  have hL3 : (rf_frame msg ++ [rssi, stat]).length - 3 = msg.length := by
    rw [hflen]
    omega
  obtain ⟨hE, _, _, _, hPay, _, _, _, _⟩ := handle_rf_spec initState
    (rf_frame msg ++ [rssi, stat])
    (by rw [hflen]; omega) (by rw [hflen]; omega)
    (by rw [hL1, hstat_get]; exact hcrc)
    (by show 0 + ((rf_frame msg ++ [rssi, stat]).length - 3) + 8 ≤ 96
        rw [hL3]; omega)
    (by rw [hL2, hrssi_get]; exact hrssi)
    (by rw [hL1, hstat_get]; exact hstat)
  constructor
  · have h0 : initState.uartTxBufferLength = 0 := rfl
    rw [h0, hL3] at hPay
    have := bufSlice_eq_of
      (handle_rf_rx_packet initState true (rf_frame msg ++ [rssi, stat])).uartTxBuffer
      0 msg (fun i hi => by rw [hPay i hi, hpay i hi])
    exact this
  · rw [hE]
    rfl

/-- Claim C1 witness: the round trip at the concrete payload `[65, 10]`
with RSSI 0 and status byte 128 (CRC bit set). -/
theorem C1_roundtrip_witness :
    bufSlice (handle_rf_rx_packet initState true (rf_frame [65, 10] ++ [0, 128])).uartTxBuffer
        0 2 = [65, 10]
    ∧ (handle_rf_rx_packet initState true (rf_frame [65, 10] ++ [0, 128])).rf_error = false :=
  C1_roundtrip [65, 10] 0 128 (by decide) (by decide) (by decide) (by decide) (by decide)

/-- Claim C2 counterexample: for the received frame `[2, 65, 10, 0, 128]`
(payload `[65, 10]`, RSSI 0, status byte 128 = CRC bit set, link quality 0)
the code appends `[65, 10, 48, 32, 49, 50, 56, 10]` — the decimal text
`128` of the FULL status byte — while the claim predicts the decimal text
of the low-7-bit portion `128 &&& 127 = 0`, i.e. `[65, 10, 48, 32, 48, 10]`. -/
theorem C2_cex :
    bufSlice (handle_rf_rx_packet initState true [2, 65, 10, 0, 128]).uartTxBuffer 0
        (handle_rf_rx_packet initState true [2, 65, 10, 0, 128]).uartTxBufferLength
      = [65, 10, 48, 32, 49, 50, 56, 10]
    ∧ rfPayload [2, 65, 10, 0, 128] ++ decDigits 0 ++ [32]
        ++ decDigits (128 &&& 127) ++ [10] ≠ [65, 10, 48, 32, 49, 50, 56, 10] := by
  decide

/-- Claim C2 (amended): for every successfully decoded radio frame whose
payload and full diagnostic trailer fit in the Egress Buffer (payload
length plus 8 within the remaining capacity), the bytes appended to the
Egress Buffer are the payload verbatim, the decimal text of the
signal-strength byte, a single space, the decimal text of the FULL final
status byte (the CRC/link-quality byte as stored, with the high CRC bit
NOT masked off), and a newline; bytes below the previous fill level are
untouched. -/
theorem C2_trailer (s : Modem) (frame : List Nat)
    (h5 : 5 ≤ frame.length) (h256 : frame.length < 256)
    (hcrc : ¬(frame.getD (frame.length - 1) 0 &&& 128 = 0))
    (hfit : s.uartTxBufferLength + (frame.length - 3) + 8 ≤ 96)
    (hrssi : frame.getD (frame.length - 2) 0 < 256)
    (hstat : frame.getD (frame.length - 1) 0 < 256) :
    bufSlice (handle_rf_rx_packet s true frame).uartTxBuffer s.uartTxBufferLength
        ((handle_rf_rx_packet s true frame).uartTxBufferLength - s.uartTxBufferLength)
      = rfPayload frame ++ decDigits (frame.getD (frame.length - 2) 0) ++ [32]
        ++ decDigits (frame.getD (frame.length - 1) 0) ++ [10]
    ∧ (∀ k, k < s.uartTxBufferLength →
        (handle_rf_rx_packet s true frame).uartTxBuffer k = s.uartTxBuffer k) := by
  obtain ⟨hE, hRx, hLen, hLow, hPay, hD1, hSep, hD2, hNl⟩ :=
    handle_rf_spec s frame h5 h256 hcrc hfit hrssi hstat
  refine ⟨?_, hLow⟩
  have hsub : (handle_rf_rx_packet s true frame).uartTxBufferLength - s.uartTxBufferLength
      = (frame.length - 3) + ((decDigits (frame.getD (frame.length - 2) 0)).length
        + (1 + ((decDigits (frame.getD (frame.length - 1) 0)).length + 1))) := by
    rw [hLen]
    omega
  rw [hsub]
  rw [bufSlice_split _ _ (frame.length - 3) _]
  rw [bufSlice_split _ _ (decDigits (frame.getD (frame.length - 2) 0)).length _]
  rw [bufSlice_split _ _ 1 _]
  rw [bufSlice_split _ _ (decDigits (frame.getD (frame.length - 1) 0)).length 1]
  have hp1 : bufSlice (handle_rf_rx_packet s true frame).uartTxBuffer s.uartTxBufferLength
      (frame.length - 3) = rfPayload frame := by
    have hl : (rfPayload frame).length = frame.length - 3 := by simp [rfPayload]
    rw [← hl]
    apply bufSlice_eq_of
    intro i hi
    rw [hl] at hi
    rw [hPay i hi]
    have hgd : (rfPayload frame).getD i 0 = frame.getD (i + 1) 0 := by
      rw [List.getD_eq_getElem _ _ (by rw [hl]; exact hi)]
      simp [rfPayload]
    rw [hgd]
  have hp2 : bufSlice (handle_rf_rx_packet s true frame).uartTxBuffer
      (s.uartTxBufferLength + (frame.length - 3))
      (decDigits (frame.getD (frame.length - 2) 0)).length
      = decDigits (frame.getD (frame.length - 2) 0) := by
    apply bufSlice_eq_of
    intro i hi
    exact hD1 i hi
  have hp3 : bufSlice (handle_rf_rx_packet s true frame).uartTxBuffer
      (s.uartTxBufferLength + (frame.length - 3)
        + (decDigits (frame.getD (frame.length - 2) 0)).length) 1 = [32] := by
    rw [bufSlice_one]
    rw [hSep]
  have hp4 : bufSlice (handle_rf_rx_packet s true frame).uartTxBuffer
      (s.uartTxBufferLength + (frame.length - 3)
        + (decDigits (frame.getD (frame.length - 2) 0)).length + 1)
      (decDigits (frame.getD (frame.length - 1) 0)).length
      = decDigits (frame.getD (frame.length - 1) 0) := by
    apply bufSlice_eq_of
    intro i hi
    exact hD2 i hi
  have hp5 : bufSlice (handle_rf_rx_packet s true frame).uartTxBuffer
      (s.uartTxBufferLength + (frame.length - 3)
        + (decDigits (frame.getD (frame.length - 2) 0)).length + 1
        + (decDigits (frame.getD (frame.length - 1) 0)).length) 1 = [10] := by
    rw [bufSlice_one]
    rw [hNl]
  rw [hp1, hp2, hp3, hp4, hp5]
  simp [List.append_assoc]

/-- Claim C2 witness: the trailer contract at the concrete frame
`[2, 65, 10, 7, 200]` (payload `[65, 10]`, RSSI 7, status byte 200). -/
theorem C2_trailer_witness :
    bufSlice (handle_rf_rx_packet initState true [2, 65, 10, 7, 200]).uartTxBuffer
        initState.uartTxBufferLength
        ((handle_rf_rx_packet initState true [2, 65, 10, 7, 200]).uartTxBufferLength
          - initState.uartTxBufferLength)
      = rfPayload [2, 65, 10, 7, 200] ++ decDigits 7 ++ [32] ++ decDigits 200 ++ [10] :=
  (C2_trailer initState [2, 65, 10, 7, 200] (by decide) (by decide) (by decide)
    (by decide) (by decide) (by decide)).1

/-- Claim C3 (code bug): the egress-overflow guard only checks that the
PAYLOAD fits (`UartTxBufferLength + (RfRxBufferLength - 3) > UART_BUF_LEN`,
src line 582), not the diagnostic trailer.  With the Egress Buffer at fill
level 64 and a maximal 35-byte frame (32-byte payload, RSSI 0, status
byte 128), the payload fills the buffer to exactly 96 and the trailer is
then written past the end: the length grows to 102, exceeding the
capacity UART_BUF_LEN = 96, instead of the frame being dropped as a unit;
`rf_error` stays clear throughout. -/
theorem C3_overflow_bug :
    96 < (handle_rf_rx_packet { initState with uartTxBufferLength := 64 } true
        (32 :: (List.replicate 32 65 ++ [0, 128]))).uartTxBufferLength
    ∧ (handle_rf_rx_packet { initState with uartTxBufferLength := 64 } true
        (32 :: (List.replicate 32 65 ++ [0, 128]))).uartTxBufferLength = 102
    ∧ (handle_rf_rx_packet { initState with uartTxBufferLength := 64 } true
        (32 :: (List.replicate 32 65 ++ [0, 128]))).rf_error = false := by
  decide

/-- Claim C4: `handle_rf_rx_packet` rejects every received frame shorter
than 5 bytes and every frame whose trailing status byte's CRC_OK bit
(0x80) is clear; in both cases `rf_error` (the Faulted flag) is set, the
in-progress frame is discarded (`RfRxBufferLength = 0`), and the Egress
Buffer's contents and length are untouched. -/
theorem C4_reject (s : Modem) (frame : List Nat) (h256 : frame.length < 256) :
    (frame.length < 5 →
      (handle_rf_rx_packet s true frame).rf_error = true
      ∧ (handle_rf_rx_packet s true frame).rfRxBufferLength = 0
      ∧ (handle_rf_rx_packet s true frame).uartTxBufferLength = s.uartTxBufferLength
      ∧ (∀ k, (handle_rf_rx_packet s true frame).uartTxBuffer k = s.uartTxBuffer k))
    ∧ (5 ≤ frame.length → frame.getD (frame.length - 1) 0 &&& 128 = 0 →
      (handle_rf_rx_packet s true frame).rf_error = true
      ∧ (handle_rf_rx_packet s true frame).rfRxBufferLength = 0
      ∧ (handle_rf_rx_packet s true frame).uartTxBufferLength = s.uartTxBufferLength
      ∧ (∀ k, (handle_rf_rx_packet s true frame).uartTxBuffer k = s.uartTxBuffer k)) :=
  handle_rf_reject s frame h256

/-- Claim C4 witness: the short frame `[1, 2, 3]` and the CRC-failed frame
`[2, 65, 10, 0, 0]` (status byte 0, CRC bit clear) are both rejected with
`rf_error` set, the frame discarded and nothing appended. -/
theorem C4_reject_witness :
    ((handle_rf_rx_packet initState true [1, 2, 3]).rf_error = true
      ∧ (handle_rf_rx_packet initState true [1, 2, 3]).rfRxBufferLength = 0
      ∧ (handle_rf_rx_packet initState true [1, 2, 3]).uartTxBufferLength = 0)
    ∧ ((handle_rf_rx_packet initState true [2, 65, 10, 0, 0]).rf_error = true
      ∧ (handle_rf_rx_packet initState true [2, 65, 10, 0, 0]).rfRxBufferLength = 0
      ∧ (handle_rf_rx_packet initState true [2, 65, 10, 0, 0]).uartTxBufferLength = 0) := by
  have h1 := (C4_reject initState [1, 2, 3] (by decide)).1 (by decide)
  have h2 := (C4_reject initState [2, 65, 10, 0, 0] (by decide)).2 (by decide) (by decide)
  exact ⟨⟨h1.1, h1.2.1, h1.2.2.1⟩, ⟨h2.1, h2.2.1, h2.2.2.1⟩⟩

/-! ## send_next_msg lemmas -/

theorem stop_rx_rx (s2 : Modem) :
    (if s2.rf_receiving then { s2 with rf_receiving := false } else s2).rf_receiving
      = false := by
  by_cases hb : s2.rf_receiving = true
  · rw [if_pos hb]
  · rw [if_neg hb]
    simpa using hb

theorem stop_rx_sent (s2 : Modem) :
    (if s2.rf_receiving then { s2 with rf_receiving := false } else s2).sentFrames
      = s2.sentFrames := by
  by_cases hb : s2.rf_receiving = true
  · rw [if_pos hb]
  · rw [if_neg hb]

theorem stop_rx_uart (s2 : Modem) :
    (if s2.rf_receiving then { s2 with rf_receiving := false } else s2).uartRxBuffer
        = s2.uartRxBuffer
    ∧ (if s2.rf_receiving then { s2 with rf_receiving := false } else s2).uartRxBuffer_i
        = s2.uartRxBuffer_i
    ∧ (if s2.rf_receiving then { s2 with rf_receiving := false } else s2).data_to_send
        = s2.data_to_send := by
  by_cases hb : s2.rf_receiving = true
  · rw [if_pos hb]
    exact ⟨rfl, rfl, rfl⟩
  · rw [if_neg hb]
    exact ⟨rfl, rfl, rfl⟩

theorem send_timeout (s : Modem) (ht : s.uart_rx_timeout = true)
    (hpos : 0 < s.uartRxBuffer_i) (hle : s.uartRxBuffer_i ≤ 96) :
    (send_next_msg s).sentFrames
      = s.sentFrames
        ++ [s.uartRxBuffer_i :: (List.range s.uartRxBuffer_i).map s.uartRxBuffer] := by
  have hsc : sc8 (s.uartRxBuffer_i : Int) = (s.uartRxBuffer_i : Int) :=
    sc8_ofNat _ (by omega)
  have hne : ¬((s.uartRxBuffer_i : Int) = 0 ∨ (s.uartRxBuffer_i : Int) = -1) := by omega
  have htn : ((s.uartRxBuffer_i : Int)).toNat = s.uartRxBuffer_i := by omega
  have huc : uc8 (s.uartRxBuffer_i : Int) = s.uartRxBuffer_i := by
    simp only [uc8]
    omega
  simp only [send_next_msg, ht, if_true]
  rw [hsc, if_neg hne, if_pos rfl, htn, huc]
  rw [stop_rx_sent]

theorem send_scan (s : Modem) (p : Nat)
    (ht : s.uart_rx_timeout = false)
    (hp : p < s.data_to_send) (hd : s.data_to_send ≤ 96)
    (hnl : s.uartRxBuffer p = 10) (hfirst : ∀ k, k < p → s.uartRxBuffer k ≠ 10)
    (hres : p + 1 < s.uartRxBuffer_i) (hi : s.uartRxBuffer_i ≤ 96) :
    (send_next_msg s).sentFrames
      = s.sentFrames ++ [(p + 1) :: (List.range (p + 1)).map s.uartRxBuffer]
    ∧ (∀ k, k < s.uartRxBuffer_i - (p + 1) →
        (send_next_msg s).uartRxBuffer k = s.uartRxBuffer (k + (p + 1)))
    ∧ (send_next_msg s).uartRxBuffer_i = s.uartRxBuffer_i - (p + 1)
    ∧ (send_next_msg s).data_to_send = s.data_to_send := by
  have hscan : scanNewline s.uartRxBuffer s.data_to_send = some (p + 1) :=
    scanNewline_found s.uartRxBuffer s.data_to_send p hp hnl hfirst
  have hsc : sc8 ((p + 1 : Nat) : Int) = ((p + 1 : Nat) : Int) := sc8_ofNat _ (by omega)
  have hne : ¬(((p + 1 : Nat) : Int) = 0 ∨ ((p + 1 : Nat) : Int) = -1) := by omega
  have hnei : ¬(((p + 1 : Nat) : Int) = (s.uartRxBuffer_i : Int)) := by omega
  have htn : (((p + 1 : Nat) : Int)).toNat = p + 1 := by omega
  have huc : uc8 ((p + 1 : Nat) : Int) = p + 1 := by
    simp only [uc8]
    omega
  have hsub : (((s.uartRxBuffer_i : Int) - ((p + 1 : Nat) : Int))).toNat
      = s.uartRxBuffer_i - (p + 1) := by omega
  have huc2 : uc8 ((s.uartRxBuffer_i : Int) - ((p + 1 : Nat) : Int))
      = s.uartRxBuffer_i - (p + 1) := by
    simp only [uc8]
    omega
  simp only [send_next_msg, ht, Bool.false_eq_true, if_false, hscan]
  rw [hsc, if_neg hne, if_neg hnei, htn, huc, hsub, huc2]
  refine ⟨?_, ?_, ?_, ?_⟩
  · rw [stop_rx_sent]
  · intro k hk
    rw [(stop_rx_uart _).1]
    exact shiftLoop_inside s.uartRxBuffer (p + 1) _ k hk
  · rw [(stop_rx_uart _).2.1]
  · rw [(stop_rx_uart _).2.2]

/-! ## Claims C5, C6: the Ingress path and dispatch -/

/-- Claim C5 (code bug): after the serial bytes `A \n B \n C` and three
dispatch iterations (each transmission completing in between), the
dispatch scan reads a stale newline beyond the live buffer content
(`data_to_send` is still 4 while only 1 live byte remains), finds
`len = 2 > UartRxBuffer_i = 1`, skips the shift loop, and the unsigned
`UartRxBuffer_i -= len` wraps to 255 — the stored length exceeds the
96-byte capacity, violating the claimed invariant. -/
theorem C5_overflow_trace :
    (runEvents initState [Ev.uartByte 65, Ev.uartByte 10, Ev.uartByte 66, Ev.uartByte 10,
        Ev.uartByte 67, Ev.dispatch, Ev.rfEvent true [], Ev.dispatch, Ev.rfEvent true [],
        Ev.dispatch]).uartRxBuffer_i = 255
    ∧ 96 < (runEvents initState [Ev.uartByte 65, Ev.uartByte 10, Ev.uartByte 66,
        Ev.uartByte 10, Ev.uartByte 67, Ev.dispatch, Ev.rfEvent true [], Ev.dispatch,
        Ev.rfEvent true [], Ev.dispatch]).uartRxBuffer_i := by
  decide

/-- Claim C6: dispatch takes the whole Ingress Buffer as the message when
the flush timer fired, and otherwise the prefix ending at the first
newline found scanning from the buffer start; residual bytes are shifted
to the front in order with the pending flag (`data_to_send`) left set;
and the serial input `A \n B \n` buffered before any dispatch yields the
two frames `[2][65][10]` then `[2][66][10]` in that order. -/
theorem C6_dispatch :
    (∀ s : Modem, s.uart_rx_timeout = true → 0 < s.uartRxBuffer_i →
      s.uartRxBuffer_i ≤ 96 →
      (send_next_msg s).sentFrames
        = s.sentFrames
          ++ [s.uartRxBuffer_i :: (List.range s.uartRxBuffer_i).map s.uartRxBuffer])
    ∧ (∀ (s : Modem) (p : Nat), s.uart_rx_timeout = false →
      p < s.data_to_send → s.data_to_send ≤ 96 →
      s.uartRxBuffer p = 10 → (∀ k, k < p → s.uartRxBuffer k ≠ 10) →
      p + 1 < s.uartRxBuffer_i → s.uartRxBuffer_i ≤ 96 →
      (send_next_msg s).sentFrames
        = s.sentFrames ++ [(p + 1) :: (List.range (p + 1)).map s.uartRxBuffer]
      ∧ (∀ k, k < s.uartRxBuffer_i - (p + 1) →
          (send_next_msg s).uartRxBuffer k = s.uartRxBuffer (k + (p + 1)))
      ∧ (send_next_msg s).uartRxBuffer_i = s.uartRxBuffer_i - (p + 1)
      ∧ (send_next_msg s).data_to_send = s.data_to_send)
    ∧ (runEvents initState [Ev.uartByte 65, Ev.uartByte 10, Ev.uartByte 66, Ev.uartByte 10,
        Ev.dispatch, Ev.rfEvent true [], Ev.dispatch]).sentFrames
      = [[2, 65, 10], [2, 66, 10]] :=
  ⟨send_timeout, send_scan, by decide⟩

/-- Claim C6 witness: the timeout case at a state holding `[65, 66]`
(whole buffer taken), the scan case at a state holding `A \n B \n`
(first newline at position 1, residue shifted, pending flag kept), and
the concrete two-frame scenario. -/
theorem C6_dispatch_witness :
    (send_next_msg { initState with
        uartRxBuffer := fun k => List.getD [65, 66] k 0,
        uartRxBuffer_i := 2, uart_rx_timeout := true,
        data_to_send := 1 }).sentFrames = [[2, 65, 66]]
    ∧ (send_next_msg { initState with
        uartRxBuffer := fun k => List.getD [65, 10, 66, 10] k 0,
        uartRxBuffer_i := 4, data_to_send := 4 }).sentFrames = [[2, 65, 10]]
    ∧ (send_next_msg { initState with
        uartRxBuffer := fun k => List.getD [65, 10, 66, 10] k 0,
        uartRxBuffer_i := 4, data_to_send := 4 }).uartRxBuffer 0 = 66
    ∧ (send_next_msg { initState with
        uartRxBuffer := fun k => List.getD [65, 10, 66, 10] k 0,
        uartRxBuffer_i := 4, data_to_send := 4 }).uartRxBuffer_i = 2
    ∧ (send_next_msg { initState with
        uartRxBuffer := fun k => List.getD [65, 10, 66, 10] k 0,
        uartRxBuffer_i := 4, data_to_send := 4 }).data_to_send = 4 := by
  have ha := C6_dispatch.1 { initState with
      uartRxBuffer := fun k => List.getD [65, 66] k 0,
      uartRxBuffer_i := 2, uart_rx_timeout := true,
      data_to_send := 1 } rfl (by decide) (by decide)
  have hb := C6_dispatch.2.1 { initState with
      uartRxBuffer := fun k => List.getD [65, 10, 66, 10] k 0,
      uartRxBuffer_i := 4, data_to_send := 4 } 1 rfl (by decide) (by decide)
    (by decide) (by decide) (by decide) (by decide)
  refine ⟨ha.trans (by decide), hb.1.trans (by decide),
    (hb.2.1 0 (by decide)).trans (by decide), hb.2.2.1.trans (by decide),
    hb.2.2.2.trans (by decide)⟩

/-! ## Claim C7: half-duplex invariant -/

theorem handle_uart_flags (s : Modem) (b : Nat) :
    (handle_uart_rx_byte s b).1.rf_transmitting = s.rf_transmitting
    ∧ (handle_uart_rx_byte s b).1.rf_receiving = s.rf_receiving := by
  simp only [handle_uart_rx_byte]
  split
  · exact ⟨rfl, rfl⟩
  · split
    · exact ⟨rfl, rfl⟩
    · exact ⟨rfl, rfl⟩

theorem timer_isr_flags (s : Modem) :
    (timer1_a0_isr s).1.rf_transmitting = s.rf_transmitting
    ∧ (timer1_a0_isr s).1.rf_receiving = s.rf_receiving := by
  simp only [timer1_a0_isr]
  split
  · exact ⟨rfl, rfl⟩
  · exact ⟨rfl, rfl⟩

theorem handle_rf_flags (s : Modem) (st : Bool) (frame : List Nat) :
    (handle_rf_rx_packet s st frame).rf_receiving = false
    ∧ (handle_rf_rx_packet s st frame).rf_transmitting = s.rf_transmitting := by
  simp only [handle_rf_rx_packet]
  split
  · exact ⟨rfl, rfl⟩
  · split
    · exact ⟨rfl, rfl⟩
    · split
      · exact ⟨rfl, rfl⟩
      · split
        · exact ⟨rfl, rfl⟩
        · exact ⟨rfl, rfl⟩

theorem send_excl (s : Modem) (h : s.rf_transmitting = false) :
    (send_next_msg s).rf_transmitting = false ∨ (send_next_msg s).rf_receiving = false := by
  by_cases ht : s.uart_rx_timeout
  · simp only [send_next_msg, ht, if_true]
    split
    · left
      exact h
    · right
      split
      · exact stop_rx_rx _
      · exact stop_rx_rx _
  · simp only [send_next_msg, ht]
    simp only [Bool.false_eq_true, if_false]
    cases hscan : scanNewline s.uartRxBuffer s.data_to_send with
    | none =>
      simp only
      split
      · left
        exact h
      · right
        split
        · exact stop_rx_rx _
        · exact stop_rx_rx _
    | some l =>
      simp only
      split
      · left
        exact h
      · right
        split
        · exact stop_rx_rx _
        · exact stop_rx_rx _

theorem step_excl (s : Modem) (e : Ev)
    (h : s.rf_transmitting = false ∨ s.rf_receiving = false) :
    (step s e).rf_transmitting = false ∨ (step s e).rf_receiving = false := by
  cases e with
  | uartByte b =>
    simp only [step]
    rcases h with h | h
    · left
      rw [(handle_uart_flags s b).1, h]
    · right
      rw [(handle_uart_flags s b).2, h]
  | timerFire =>
    simp only [step]
    split
    · rcases h with h | h
      · left
        rw [(timer_isr_flags s).1, h]
      · right
        rw [(timer_isr_flags s).2, h]
    · exact h
  | rfEvent st frame =>
    simp only [step, cc1101_isr]
    split
    · left
      split
      · rfl
      · next h2 => simpa using h2
    · split
      · left
        rfl
      · exact h
  | startListen =>
    simp only [step]
    split
    · next hguard =>
      left
      split
      · exact hguard.1
      · exact hguard.1
    · exact h
  | dispatch =>
    simp only [step]
    split
    · next hguard => exact send_excl s hguard.1
    · exact h

theorem runEvents_excl : ∀ (evs : List Ev) (s : Modem),
    (s.rf_transmitting = false ∨ s.rf_receiving = false) →
    ((runEvents s evs).rf_transmitting = false ∨ (runEvents s evs).rf_receiving = false) := by
  intro evs
  induction evs with
  | nil => intro s h; exact h
  | cons e es ih =>
    intro s h
    exact ih (step s e) (step_excl s e h)

/-- Claim C7: in every state reachable from startup by any sequence of
interrupt and supervisor-loop events, the `rf_transmitting` and
`rf_receiving` flags are never both set: dispatch turns receive mode off
before setting `rf_transmitting`, and listening only starts when neither
flag is set. -/
theorem C7_half_duplex (evs : List Ev) :
    ¬((runEvents initState evs).rf_transmitting = true
      ∧ (runEvents initState evs).rf_receiving = true) := by
  intro hcontra
  rcases runEvents_excl evs initState (Or.inl rfl) with h | h
  · rw [hcontra.1] at h
    exact absurd h (by simp)
  · rw [hcontra.2] at h
    exact absurd h (by simp)

/-! ## Claims C8-C10: wake-up signalling, flush-timer rearm, lost message -/

/-- Claim C8 counterexample: the flush timer fires with a nonempty Ingress
Buffer (the exact situation in which the claim says the supervisor is
woken), the handler sets the pending flags — yet it does not clear the
low-power mode bits: the wake output of `TIMER1_A0_ISR` is false. -/
theorem C8_cex :
    (timer1_a0_isr { initState with uartRxBuffer_i := 2 }).2 = false
    ∧ 0 < ({ initState with uartRxBuffer_i := 2 } : Modem).uartRxBuffer_i
    ∧ (timer1_a0_isr { initState with uartRxBuffer_i := 2 }).1.data_to_send = 1
    ∧ (timer1_a0_isr { initState with uartRxBuffer_i := 2 }).1.uart_rx_timeout = true := by
  decide

/-- Claim C8 (amended): when a terminator byte is accepted into the
Ingress Buffer the serial interrupt handler clears the low-power mode
bits on exit (waking the Link Supervisor); the flush-timer interrupt
handler, by contrast, sets the pending flags but never clears the
low-power mode bits — its source contains no such instruction — so the
timer alone does not wake the supervisor. -/
theorem C8_wake :
    (∀ (s : Modem) (b : Nat), s.uartRxBuffer_i ≠ 96 → b = 10 →
      (usci_a0_isr_rx s b).2 = true)
    ∧ (∀ s : Modem, (timer1_a0_isr s).2 = false) := by
  constructor
  · intro s b hfull hb
    simp only [usci_a0_isr_rx, handle_uart_rx_byte]
    rw [if_neg hfull, if_pos hb]
  · intro s
    simp only [timer1_a0_isr]
    split
    · rfl
    · rfl

/-- Claim C8 witness: a newline accepted into the empty initial buffer
wakes the supervisor; a timer expiry never does. -/
theorem C8_wake_witness :
    (usci_a0_isr_rx initState 10).2 = true
    ∧ (timer1_a0_isr initState).2 = false :=
  ⟨C8_wake.1 initState 10 (by decide) rfl, C8_wake.2 initState⟩

/-- Claim C9 counterexample: with the Ingress Buffer full (index 96) and
the timer armed, a non-terminator byte is discarded and the handler
leaves the Flush Timer CLEARED, not rearmed — `timer_clear()` runs before
the full-buffer check and no `timer_set` follows on the discard path. -/
theorem C9_cex :
    (handle_uart_rx_byte { initState with uartRxBuffer_i := 96, timerArmed := true }
        65).1.timerArmed = false
    ∧ ({ initState with uartRxBuffer_i := 96, timerArmed := true } : Modem).uartRxBuffer_i
        = 96
    ∧ (65 : Nat) ≠ 10 := by
  decide

/-- Claim C9 (amended): every ACCEPTED non-terminator serial byte rearms
the Flush Timer; a byte that is discarded because the Ingress Buffer is
full leaves the timer cleared (the pending timer is cancelled, not
rearmed) and zeroes the timeout flag, while the buffer contents, stored
length and pending flag are untouched. -/
theorem C9_timer :
    (∀ (s : Modem) (b : Nat), s.uartRxBuffer_i ≠ 96 → b ≠ 10 →
      (handle_uart_rx_byte s b).1.timerArmed = true)
    ∧ (∀ (s : Modem) (b : Nat), s.uartRxBuffer_i = 96 →
      (handle_uart_rx_byte s b).1.timerArmed = false
      ∧ (handle_uart_rx_byte s b).1.uart_rx_timeout = false
      ∧ (∀ k, (handle_uart_rx_byte s b).1.uartRxBuffer k = s.uartRxBuffer k)
      ∧ (handle_uart_rx_byte s b).1.uartRxBuffer_i = s.uartRxBuffer_i
      ∧ (handle_uart_rx_byte s b).1.data_to_send = s.data_to_send) := by
  constructor
  · intro s b hfull hb
    simp only [handle_uart_rx_byte]
    rw [if_neg hfull, if_neg hb]
  · intro s b hfull
    simp only [handle_uart_rx_byte]
    rw [if_pos hfull]
    exact ⟨rfl, rfl, fun k => rfl, rfl, rfl⟩

/-- Claim C9 witness: byte 65 accepted into the empty initial buffer
rearms the timer; byte 65 arriving at a full buffer is dropped with the
buffer state intact and the timer left cleared. -/
theorem C9_timer_witness :
    (handle_uart_rx_byte initState 65).1.timerArmed = true
    ∧ ((handle_uart_rx_byte { initState with uartRxBuffer_i := 96 } 65).1.timerArmed = false
      ∧ (handle_uart_rx_byte { initState with uartRxBuffer_i := 96 } 65).1.uartRxBuffer_i
          = 96
      ∧ (handle_uart_rx_byte { initState with uartRxBuffer_i := 96 } 65).1.uartRxBuffer 0
          = ({ initState with uartRxBuffer_i := 96 } : Modem).uartRxBuffer 0) := by
  have h1 := C9_timer.1 initState 65 (by decide) (by decide)
  have h2 := C9_timer.2 { initState with uartRxBuffer_i := 96 } 65 rfl
  exact ⟨h1, h2.1, h2.2.2.2.1, h2.2.2.1 0⟩

/-- Claim C10: bytes 65 and 66 arrive, the flush timer fires (setting the
pending flag to 1 and the timeout flag), then byte 67 arrives before
dispatch: the handler's `timer_clear()` zeroes the timeout flag while
`data_to_send` stays 1.  The following dispatch scans only
`UartRxBuffer[0]` for a newline, finds none, and clears the whole
Ingress Buffer without transmitting anything — the buffered message is
silently discarded. -/
theorem C10_lost_message :
    ((runEvents initState [Ev.uartByte 65, Ev.uartByte 66, Ev.timerFire,
        Ev.uartByte 67]).uart_rx_timeout = false
      ∧ (runEvents initState [Ev.uartByte 65, Ev.uartByte 66, Ev.timerFire,
          Ev.uartByte 67]).data_to_send = 1
      ∧ (runEvents initState [Ev.uartByte 65, Ev.uartByte 66, Ev.timerFire,
          Ev.uartByte 67]).uartRxBuffer_i = 3)
    ∧ ((runEvents initState [Ev.uartByte 65, Ev.uartByte 66, Ev.timerFire,
        Ev.uartByte 67, Ev.dispatch]).uartRxBuffer_i = 0
      ∧ (runEvents initState [Ev.uartByte 65, Ev.uartByte 66, Ev.timerFire,
          Ev.uartByte 67, Ev.dispatch]).data_to_send = 0
      ∧ (runEvents initState [Ev.uartByte 65, Ev.uartByte 66, Ev.timerFire,
          Ev.uartByte 67, Ev.dispatch]).sentFrames = []) := by
  decide
